import Mathlib

/-!
Verification of the crypto-challenge repository's two utility modules.

The Python sources are shallowly embedded as follows:

* Python `float` arithmetic is idealised as exact arithmetic over `ℚ`
  (for the purely rational computations: swap maths, SMA, RSI,
  support/resistance) or over `ℝ` (where `math.sqrt` or `**` with a real
  exponent occurs: impermanent loss, APY, compound interest).
* `round(x, n)` is idealised as exact decimal rounding to `n` places.
* A Python function that can raise (ZeroDivisionError on `/ 0`,
  TypeError from `round` applied to the complex result of a negative
  float base raised to a non-integral float power) is embedded as an
  `Option`-valued function returning `none` exactly where the source
  raises.
* The SHA-256 hex-digest primitive used by the Merkle builder is kept
  abstract: every definition and theorem about the Merkle builder is
  parametrised over `sha256hex : String → String`, the function taking a
  string to the hex digest of the SHA-256 of its UTF-8 encoding.  The
  claims about the Merkle builder are structural and hold for every
  choice of this primitive, hence in particular for SHA-256.
-/

namespace CryptoUtils

/-- Embeds `CryptoUtils.calculate_hash` at its default algorithm
(`'sha256'`): the hex digest of the SHA-256 of the UTF-8 encoding of
`data`.  The digest primitive `sha256hex` is an abstract parameter. -/
def calculate_hash (sha256hex : String → String) (data : String) : String :=
  sha256hex data

/-- Embeds one iteration of the `while len(hashes) > 1` loop body of
`CryptoUtils.generate_merkle_root`: pair adjacent hashes left to right
(`for i in range(0, len(hashes), 2)`), concatenating and hashing; a
trailing unpaired hash (`i + 1 < len(hashes)` fails) is concatenated
with itself. -/
def nextLevel (sha256hex : String → String) : List String → List String
  | [] => []
  | [a] => [sha256hex (a ++ a)]
  | a :: b :: rest => sha256hex (a ++ b) :: nextLevel sha256hex rest

theorem length_nextLevel (sha256hex : String → String) :
    ∀ l : List String, (nextLevel sha256hex l).length = (l.length + 1) / 2
  | [] => rfl
  | [_] => by simp [nextLevel]
  | _ :: _ :: rest => by
    simp only [nextLevel, List.length_cons, length_nextLevel sha256hex rest]
    omega

/-- Embeds the `while len(hashes) > 1` loop of
`CryptoUtils.generate_merkle_root` followed by `return hashes[0]`:
reduce the level until at most one hash remains, then return the first
element (the source guarantees the list is nonempty at that point; an
empty list maps to the default `""`). -/
def merkleLoop (sha256hex : String → String) (hashes : List String) : String :=
  if hashes.length ≤ 1 then hashes.headD ""
  else merkleLoop sha256hex (nextLevel sha256hex hashes)
termination_by hashes.length
decreasing_by
  rw [length_nextLevel]
  omega

/-- Embeds `CryptoUtils.generate_merkle_root`: empty input returns
`""`; otherwise each transaction is hashed with `calculate_hash` and
the levels are reduced to a single root. -/
def generate_merkle_root (sha256hex : String → String)
    (transactions : List String) : String :=
  if transactions = [] then ""
  else merkleLoop sha256hex (transactions.map (calculate_hash sha256hex))

/-- Spec-side model of one pairing pass, following the claim's words:
"repeatedly pairing adjacent hex hashes left-to-right, concatenating
the two hex strings and SHA-256-hashing the concatenation, duplicating
the last hash to pair with itself when a level has an odd count". -/
def levelSpec (sha256hex : String → String) : List String → List String
  | [] => []
  | [a] => [sha256hex (a ++ a)]
  | a :: b :: rest => sha256hex (a ++ b) :: levelSpec sha256hex rest

theorem length_levelSpec (sha256hex : String → String) :
    ∀ l : List String, (levelSpec sha256hex l).length = (l.length + 1) / 2
  | [] => rfl
  | [_] => by simp [levelSpec]
  | _ :: _ :: rest => by
    simp only [levelSpec, List.length_cons, length_levelSpec sha256hex rest]
    omega

/-- Spec-side model of the reduction, following the claim's words:
repeat the pairing pass "until one hash remains, which is returned". -/
def foldSpec (sha256hex : String → String) : List String → String
  | [] => ""
  | [a] => a
  | a :: b :: rest => foldSpec sha256hex (levelSpec sha256hex (a :: b :: rest))
termination_by l => l.length
decreasing_by
  rw [length_levelSpec]
  simp only [List.length_cons]
  omega

/-- Spec-side model of the whole algorithm, following the claim's
words: hash "each leaf with SHA-256 over its UTF-8 encoding to a hex
string", then reduce the levels to a single root. -/
def merkleRootSpec (sha256hex : String → String) (transactions : List String) :
    String :=
  foldSpec sha256hex (transactions.map sha256hex)

theorem nextLevel_eq_levelSpec (sha256hex : String → String) :
    ∀ l : List String, nextLevel sha256hex l = levelSpec sha256hex l
  | [] => rfl
  | [_] => rfl
  | _ :: _ :: rest => by
    simp only [nextLevel, levelSpec, nextLevel_eq_levelSpec sha256hex rest]

theorem merkleLoop_eq_foldSpec (sha256hex : String → String) :
    ∀ l : List String, l ≠ [] →
      merkleLoop sha256hex l = foldSpec sha256hex l
  | [], h => absurd rfl h
  | [a], _ => by
    rw [merkleLoop]
    simp [foldSpec]
  | a :: b :: rest, _ => by
    rw [merkleLoop]
    have hlen : ¬ (a :: b :: rest).length ≤ 1 := by
      simp only [List.length_cons]
      omega
    rw [if_neg hlen, foldSpec, nextLevel_eq_levelSpec]
    refine merkleLoop_eq_foldSpec sha256hex _ ?_
    have := length_levelSpec sha256hex (a :: b :: rest)
    intro hnil
    rw [hnil] at this
    simp only [List.length_nil, List.length_cons] at this
    omega
termination_by l => l.length
decreasing_by
  rw [length_levelSpec]
  simp only [List.length_cons]
  omega

end CryptoUtils

/-- Idealised model of Python's `round(x, n)` over exact rationals:
round `x` to `n` decimal places (to the nearest representable value;
the tie-breaking convention is irrelevant everywhere this development
evaluates it, as no tie occurs at any input used). -/
def roundTo (n : ℕ) (x : ℚ) : ℚ :=
  ((round (x * 10 ^ n) : ℤ) : ℚ) / 10 ^ n

/-- Idealised model of Python's `round(x, n)` over `ℝ`, used by the
real-valued embeddings (APY, compound interest). -/
noncomputable def roundToR (n : ℕ) (x : ℝ) : ℝ :=
  ((round (x * 10 ^ n) : ℤ) : ℝ) / 10 ^ n

namespace TechnicalAnalysis

/-- Embeds `TechnicalAnalysis.calculate_sma`.  Windows are Python
slices `prices[i-period+1 : i+1]` for `i` in
`range(period-1, len(prices))`, re-indexed by `k = i-(period-1)` as
`(prices.drop k).take period`.  When `period = 0` the guard
`len(prices) < period` never fires and the loop divides by zero
(ZeroDivisionError), embedded as `none`. -/
def calculate_sma (prices : List ℚ) (period : ℕ) : Option (List ℚ) :=
  if prices.length < period then some []
  else if period = 0 then none
  else some ((List.range (prices.length - period + 1)).map fun k =>
    roundTo 8 (((prices.drop k).take period).sum / period))

/-- The list of consecutive price changes `prices[i] - prices[i-1]`
computed by `calculate_rsi`'s first loop. -/
def rsiChanges (prices : List ℚ) : List ℚ :=
  List.zipWith (fun x y => x - y) prices.tail prices

/-- The `gains` list built by `calculate_rsi`'s first loop: a positive
change contributes itself, any other change contributes `0`. -/
def rsiGains (prices : List ℚ) : List ℚ :=
  (rsiChanges prices).map fun c => if 0 < c then c else 0

/-- The `losses` list built by `calculate_rsi`'s first loop: a positive
change contributes `0`, any other change contributes its absolute
value. -/
def rsiLosses (prices : List ℚ) : List ℚ :=
  (rsiChanges prices).map fun c => if 0 < c then 0 else |c|

/-- Average of the window `l[k : k+period]` divided by `period`, the
`sum(...[i-period+1:i+1]) / period` expression of `calculate_rsi`
re-indexed by `k = i-(period-1)`. -/
def rsiAvg (l : List ℚ) (period k : ℕ) : ℚ :=
  ((l.drop k).take period).sum / period

/-- Embeds `TechnicalAnalysis.calculate_rsi`.  `rsiChanges` is the list
of consecutive differences `prices[i] - prices[i-1]`, split into
`rsiGains`/`rsiLosses`; windows over those lists are re-indexed exactly
as in `calculate_sma`.  When `period = 0` the guard does not return
early for a nonempty price list and the loop divides by zero
(ZeroDivisionError), embedded as `none`. -/
def calculate_rsi (prices : List ℚ) (period : ℕ) : Option (List ℚ) :=
  if prices.length < period + 1 then some []
  else if period = 0 then none
  else
    some ((List.range ((rsiGains prices).length - period + 1)).map fun k =>
      let avg_gain := rsiAvg (rsiGains prices) period k
      let avg_loss := rsiAvg (rsiLosses prices) period k
      roundTo 2 (if avg_loss = 0 then 100 else 100 - 100 / (1 + avg_gain / avg_loss)))

/-- Local-minimum test of `detect_support_resistance` at index `i`
(assumed `≥ window`): Python's
`all(prices[i] <= prices[i+j] for j in range(-window, window+1) if j != 0)`,
with the offset re-indexed by `j' = j + window ∈ [0, 2*window]`.
Indices are always in range at every use; `getD _ 0` is the total
accessor. -/
def isSupportAt (prices : List ℚ) (window i : ℕ) : Bool :=
  decide (∀ j < 2 * window + 1, j ≠ window →
    prices.getD i 0 ≤ prices.getD (i - window + j) 0)

/-- Local-maximum test of `detect_support_resistance` at index `i`:
Python's
`all(prices[i] >= prices[i+j] for j in range(-window, window+1) if j != 0)`. -/
def isResistanceAt (prices : List ℚ) (window i : ℕ) : Bool :=
  decide (∀ j < 2 * window + 1, j ≠ window →
    prices.getD (i - window + j) 0 ≤ prices.getD i 0)

/-- Embeds `TechnicalAnalysis.detect_support_resistance`.  The scan
runs over `i in range(window, len(prices) - window)`; collected price
levels pass through Python's `list(set(...))`, modelled as a `Finset`
(duplicates removed, no order).  No partial operation occurs for a
natural-number `window`, so the function is total. -/
def detect_support_resistance (prices : List ℚ) (window : ℕ) :
    Option (Finset ℚ × Finset ℚ) :=
  if prices.length < 2 * window + 1 then some (∅, ∅)
  else
    let idxs := (List.range (prices.length - 2 * window)).map fun k => window + k
    some ((((idxs.filter (isSupportAt prices window)).map
              fun i => prices.getD i 0).toFinset),
          (((idxs.filter (isResistanceAt prices window)).map
              fun i => prices.getD i 0).toFinset))

/-- Embeds `TechnicalAnalysis.detect_support_resistance` over the full
Python `int` domain of `window`.  For every negative `window` the
source raises IndexError: the guard `len(prices) < window*2 + 1` never
fires, the inner generator `range(-window, window+1)` is empty so
`all(...)` is vacuously true without reading any element, and the scan
`range(window, len(prices) - window)` reaches either a negative index
below `-len(prices)` or the index `len(prices)` itself, where
`prices[i]` raises.  This is embedded as `none`.  A non-negative
`window` delegates to the natural-number embedding above, which is
total. -/
def detect_support_resistance_int (prices : List ℚ) (window : ℤ) :
    Option (Finset ℚ × Finset ℚ) :=
  if window < 0 then none
  else detect_support_resistance prices window.toNat

/-- Spec-side model of the support set, following the claim's words:
"exactly the prices of points that are <= all points within a symmetric
window of `window` positions on each side (excluding the point
itself)", i.e. the points possessing `window` neighbours on each side
that are all at least as large. -/
def supportSpec (prices : List ℚ) (window : ℕ) : Finset ℚ :=
  (((List.range prices.length).filter fun i =>
      decide (window ≤ i) && decide (i + window < prices.length) &&
        isSupportAt prices window i).map fun i => prices.getD i 0).toFinset

/-- Spec-side model of the resistance set, following the claim's words:
the prices of points that are >= all points within the symmetric
window. -/
def resistanceSpec (prices : List ℚ) (window : ℕ) : Finset ℚ :=
  (((List.range prices.length).filter fun i =>
      decide (window ≤ i) && decide (i + window < prices.length) &&
        isResistanceAt prices window i).map fun i => prices.getD i 0).toFinset

end TechnicalAnalysis

namespace DeFiCalculator

/-- Embeds `DeFiCalculator.calculate_apy`.  Guarded inputs return
`0.0`.  Otherwise `daily_rate = (final/principal) ** (1/days) - 1` and
`apy = ((1+daily_rate)**365 - 1) * 100`, rounded to two decimals.  When
`final/principal` is negative and the exponent `1/days` is not integral
(i.e. `days ≠ 1`), Python's `**` yields a complex number and the final
`round` raises TypeError, embedded as `none`; for `days = 1` the
exponent is the integral float `1.0` and the power stays real. -/
noncomputable def calculate_apy (principal final_amount : ℝ)
    (time_period_days : ℤ) : Option ℝ :=
  if principal ≤ 0 ∨ time_period_days ≤ 0 then some 0
  else if final_amount / principal < 0 ∧ time_period_days ≠ 1 then none
  else
    let daily_rate :=
      (final_amount / principal) ^ ((1 : ℝ) / (time_period_days : ℝ)) - 1
    some (roundToR 2 (((1 + daily_rate) ^ (365 : ℕ) - 1) * 100))

/-- Embeds `DeFiCalculator.calculate_impermanent_loss` (argument
`price_ratio` renamed `pr`): non-positive ratios return `0.0`;
otherwise `abs(2*sqrt(pr)/(1+pr) - 1) * 100`.  In the unguarded branch
`pr > 0`, so `math.sqrt` is within its domain and `1 + pr ≠ 0`: no
partial operation occurs. -/
noncomputable def calculate_impermanent_loss (pr : ℝ) : Option ℝ :=
  if pr ≤ 0 then some 0
  else some (|2 * Real.sqrt pr / (1 + pr) - 1| * 100)

/-- Embeds `DeFiCalculator.calculate_compound_interest`: guarded inputs
return the principal unchanged; otherwise
`principal * (1 + rate/compounds_per_year) ** (compounds_per_year*years)`
rounded to eight decimals.  `compounds_per_year = 0` reaches
`rate / 0` (ZeroDivisionError), embedded as `none`; otherwise the power
has base `1 + rate/c > 1` (as `rate > 0` there) and stays real. -/
noncomputable def calculate_compound_interest (principal rate : ℝ)
    (compounds_per_year : ℕ) (years : ℝ) : Option ℝ :=
  if principal ≤ 0 ∨ rate ≤ 0 then some principal
  else if compounds_per_year = 0 then none
  else some (roundToR 8 (principal *
    (1 + rate / (compounds_per_year : ℝ)) ^ ((compounds_per_year : ℝ) * years)))

end DeFiCalculator

namespace BaseEcosystemIntegration

/-- Embeds `BaseEcosystemIntegration.calculate_swap_output`:
non-positive reserves return `0`; otherwise
`amount_in_with_fee = amount_in * (1 - fee_rate)` and the output is
`amount_in_with_fee * reserve_out / (reserve_in + amount_in_with_fee)`.
A zero denominator raises ZeroDivisionError in the source, embedded as
`none`. -/
def calculate_swap_output (amount_in reserve_in reserve_out fee_rate : ℚ) :
    Option ℚ :=
  if reserve_in ≤ 0 ∨ reserve_out ≤ 0 then some 0
  else
    let amount_in_with_fee := amount_in * (1 - fee_rate)
    if reserve_in + amount_in_with_fee = 0 then none
    else some (amount_in_with_fee * reserve_out / (reserve_in + amount_in_with_fee))

/-- Embeds `BaseEcosystemIntegration._calculate_price_impact` (the
leading underscore is dropped): non-positive reserve returns `0`;
otherwise `(amount_in / reserve_in) * 100`, total since
`reserve_in > 0` in the unguarded branch. -/
def calculate_price_impact (amount_in reserve_in : ℚ) : Option ℚ :=
  if reserve_in ≤ 0 then some 0
  else some (amount_in / reserve_in * 100)

/-- Embeds `BaseEcosystemIntegration.calculate_impermanent_loss`
(arguments `initial_price_ratio`, `current_price_ratio` renamed
`initial_pr`, `current_pr`): non-positive ratios return `0`; otherwise
with `rc = current_pr / initial_pr` the result is
`abs(2 * rc ** 0.5 / (1 + rc) - 1) * 100`.  In the unguarded branch
`rc > 0`, so the real power and the division are total. -/
noncomputable def calculate_impermanent_loss (initial_pr current_pr : ℝ) :
    Option ℝ :=
  if initial_pr ≤ 0 ∨ current_pr ≤ 0 then some 0
  else
    let rc := current_pr / initial_pr
    some (|2 * rc ^ ((1 : ℝ) / 2) / (1 + rc) - 1| * 100)

end BaseEcosystemIntegration

/-- C1: for every non-empty list of transaction strings,
`generate_merkle_root` returns the result of hashing each leaf, then
repeatedly pairing adjacent hashes left-to-right, hashing the
concatenations, duplicating the last hash of an odd level, until a
single hash remains.  Stated for every digest primitive `sha256hex`,
hence in particular for SHA-256 over the UTF-8 encoding. -/
theorem C1_generate_merkle_root_correct (sha256hex : String → String)
    (transactions : List String) (h : transactions ≠ []) :
    CryptoUtils.generate_merkle_root sha256hex transactions =
      CryptoUtils.merkleRootSpec sha256hex transactions := by
  unfold CryptoUtils.generate_merkle_root CryptoUtils.merkleRootSpec
  rw [if_neg h]
  exact CryptoUtils.merkleLoop_eq_foldSpec sha256hex _ (by simpa using h)

/-- Witness for C1 at a concrete digest primitive and transaction
list. -/
theorem C1_witness :
    (["t1", "t2", "t3"] : List String) ≠ [] ∧
      CryptoUtils.generate_merkle_root (fun s => s ++ s) ["t1", "t2", "t3"] =
        CryptoUtils.merkleRootSpec (fun s => s ++ s) ["t1", "t2", "t3"] :=
  ⟨by decide,
    C1_generate_merkle_root_correct (fun s => s ++ s) ["t1", "t2", "t3"]
      (by decide)⟩

/-- C2: `generate_merkle_root` of the empty list returns the empty
string, and on a single-element list `[tx]` it returns exactly the leaf
hash `calculate_hash tx` (the SHA-256 hex digest of `tx`), not
re-hashed with itself. -/
theorem C2_merkle_empty_and_singleton (sha256hex : String → String)
    (tx : String) :
    CryptoUtils.generate_merkle_root sha256hex [] = "" ∧
      CryptoUtils.generate_merkle_root sha256hex [tx] =
        CryptoUtils.calculate_hash sha256hex tx := by
  constructor
  · rfl
  · unfold CryptoUtils.generate_merkle_root
    rw [if_neg (by simp), CryptoUtils.merkleLoop]
    simp [CryptoUtils.calculate_hash]

/-- Counterexample to C3 as stated: at
`amount_in = -1000, reserve_in = 1000, reserve_out = 2000, fee_rate = 0`
both reserves are positive but the denominator
`reserve_in + amount_in*(1-fee_rate)` is zero, so the source raises
ZeroDivisionError (embedded `none`) instead of returning a value. -/
theorem C3_counterexample :
    BaseEcosystemIntegration.calculate_swap_output (-1000) 1000 2000 0 = none ∧
      BaseEcosystemIntegration.calculate_swap_output (-1000) 1000 2000 0 ≠
        some ((-1000) * (1 - 0) * 2000 / (1000 + (-1000) * (1 - 0))) := by
  have h : BaseEcosystemIntegration.calculate_swap_output (-1000) 1000 2000 0 =
      none := by
    norm_num [BaseEcosystemIntegration.calculate_swap_output]
  exact ⟨h, by rw [h]; exact fun hc => Option.noConfusion hc⟩

/-- C3 amended: `calculate_swap_output` returns `0` when either reserve
is non-positive, and returns
`amount_in*(1-fee_rate)*reserve_out / (reserve_in + amount_in*(1-fee_rate))`
when both reserves are positive, provided the denominator is nonzero
(it raises ZeroDivisionError otherwise). -/
theorem C3_swap_output_amended (amount_in reserve_in reserve_out fee_rate : ℚ) :
    (reserve_in ≤ 0 ∨ reserve_out ≤ 0 →
      BaseEcosystemIntegration.calculate_swap_output
        amount_in reserve_in reserve_out fee_rate = some 0) ∧
    (0 < reserve_in → 0 < reserve_out →
      reserve_in + amount_in * (1 - fee_rate) ≠ 0 →
      BaseEcosystemIntegration.calculate_swap_output
          amount_in reserve_in reserve_out fee_rate =
        some (amount_in * (1 - fee_rate) * reserve_out /
          (reserve_in + amount_in * (1 - fee_rate)))) := by
  simp only [BaseEcosystemIntegration.calculate_swap_output]
  constructor
  · intro h
    rw [if_pos h]
  · intro h1 h2 h3
    rw [if_neg (by push_neg; exact ⟨h1, h2⟩), if_neg h3]

/-- Witness for C3 at the worked example input. -/
theorem C3_witness :
    0 < (1000 : ℚ) ∧ 0 < (2000 : ℚ) ∧
      (1000 : ℚ) + 1 * (1 - 3 / 1000) ≠ 0 ∧
      BaseEcosystemIntegration.calculate_swap_output 1 1000 2000 (3 / 1000) =
        some (1 * (1 - 3 / 1000) * 2000 / (1000 + 1 * (1 - 3 / 1000))) :=
  ⟨by norm_num, by norm_num, by norm_num,
    (C3_swap_output_amended 1 1000 2000 (3 / 1000)).2
      (by norm_num) (by norm_num) (by norm_num)⟩

/-- Counterexample to C4 as stated: the swap example evaluates to
`1994000/1000997 ≈ 1.99201`, which differs from the claimed `1.9941` by
more than `1/500 = 0.002`, beyond any floating-point tolerance for a
four-decimal value. -/
theorem C4_counterexample :
    BaseEcosystemIntegration.calculate_swap_output 1 1000 2000 (3 / 1000) =
        some (1994000 / 1000997) ∧
      1 / 500 < |(1994000 : ℚ) / 1000997 - 19941 / 10000| := by
  constructor
  · norm_num [BaseEcosystemIntegration.calculate_swap_output]
  · rw [abs_sub_comm, abs_of_pos (by norm_num)]
    norm_num

/-- C4 amended: `calculate_swap_output(1.0, 1000, 2000, 0.003)` equals
`1994000/1000997`, which is approximately `1.9920` (within `10⁻⁴`). -/
theorem C4_swap_example_value :
    BaseEcosystemIntegration.calculate_swap_output 1 1000 2000 (3 / 1000) =
        some (1994000 / 1000997) ∧
      |(1994000 : ℚ) / 1000997 - 1992 / 1000| < 1 / 10000 := by
  constructor
  · norm_num [BaseEcosystemIntegration.calculate_swap_output]
  · rw [abs_of_pos (by norm_num)]
    norm_num

/-- Counterexample to C5 as stated: `calculate_sma([0,0,1], 3)` returns
the rounded value `0.33333333`, not the exact mean `1/3` of the trailing
three observations. -/
theorem C5_counterexample :
    TechnicalAnalysis.calculate_sma [0, 0, 1] 3 = some [33333333 / 100000000] ∧
      (33333333 / 100000000 : ℚ) ≠ (0 + 0 + 1) / 3 := by
  constructor
  · simp [TechnicalAnalysis.calculate_sma, List.range_succ]
    norm_num [roundTo, round_eq]
  · norm_num

/-- C5 amended: for a window size `period ≥ 1`, `calculate_sma` returns
the empty sequence when fewer than `period` observations exist, and
otherwise one value per position, each the mean of the trailing
`period` observations rounded to eight decimal places; the worked
example `sma([100,102,101,103,105], 5)` is the single exact mean (whose
rounding is itself). -/
theorem C5_sma_amended (prices : List ℚ) (period : ℕ) (hp : 1 ≤ period) :
    (prices.length < period →
      TechnicalAnalysis.calculate_sma prices period = some []) ∧
    (period ≤ prices.length →
      ∃ l, TechnicalAnalysis.calculate_sma prices period = some l ∧
        l.length = prices.length - period + 1 ∧
        ∀ k (h : k < l.length),
          l[k] = roundTo 8 (((prices.drop k).take period).sum / period)) ∧
    TechnicalAnalysis.calculate_sma [100, 102, 101, 103, 105] 5 =
      some [(100 + 102 + 101 + 103 + 105) / 5] := by
  refine ⟨?_, ?_, ?_⟩
  · intro h
    simp only [TechnicalAnalysis.calculate_sma, if_pos h]
  · intro h
    refine ⟨(List.range (prices.length - period + 1)).map fun k =>
      roundTo 8 (((prices.drop k).take period).sum / period), ?_, ?_, ?_⟩
    · simp only [TechnicalAnalysis.calculate_sma, if_neg (not_lt.2 h),
        if_neg (by omega : ¬ period = 0)]
    · simp
    · intro k hk
      simp only [List.getElem_map, List.getElem_range]
  · simp [TechnicalAnalysis.calculate_sma, List.range_succ]
    norm_num [roundTo, round_eq]

/-- Witness for C5 at a concrete price list and window size. -/
theorem C5_witness :
    1 ≤ 1 ∧ 1 ≤ ([(1 : ℚ), 2]).length ∧
      ∃ l, TechnicalAnalysis.calculate_sma [(1 : ℚ), 2] 1 = some l ∧
        l.length = 2 ∧
        ∀ k (h : k < l.length),
          l[k] = roundTo 8 ((([(1 : ℚ), 2].drop k).take 1).sum / 1) := by
  refine ⟨le_refl 1, by norm_num, ?_⟩
  obtain ⟨l, h1, h2, h3⟩ :=
    (C5_sma_amended [(1 : ℚ), 2] 1 (le_refl 1)).2.1 (by norm_num)
  exact ⟨l, h1, by simpa using h2, h3⟩

/-- Counterexample to C6 as stated: `calculate_rsi([2,1,3], 2)` returns
the rounded value `66.67`, not the exact
`100 - 100/(1 + avg_gain/avg_loss) = 200/3` of the claim's formula. -/
theorem C6_counterexample :
    TechnicalAnalysis.calculate_rsi [2, 1, 3] 2 = some [6667 / 100] ∧
      (6667 / 100 : ℚ) ≠ 100 - 100 / (1 + ((0 + 2) / 2) / ((1 + 0) / 2)) := by
  constructor
  · simp [TechnicalAnalysis.calculate_rsi, TechnicalAnalysis.rsiGains,
      TechnicalAnalysis.rsiLosses, TechnicalAnalysis.rsiChanges,
      TechnicalAnalysis.rsiAvg, List.range_succ]
    norm_num [roundTo, round_eq]
  · norm_num

/-- Helper: the gains list has one element per consecutive pair. -/
theorem length_rsiGains (prices : List ℚ) :
    (TechnicalAnalysis.rsiGains prices).length = prices.length - 1 := by
  simp only [TechnicalAnalysis.rsiGains, TechnicalAnalysis.rsiChanges,
    List.length_map, List.length_zipWith, List.length_tail]
  omega

/-- Helper: on a strictly increasing price series every consecutive
change is positive. -/
theorem rsiChanges_pos_of_mono (prices : List ℚ)
    (hmono : ∀ i, i + 1 < prices.length → prices.getD i 0 < prices.getD (i + 1) 0) :
    ∀ c ∈ TechnicalAnalysis.rsiChanges prices, 0 < c := by
  intro c hc
  rw [TechnicalAnalysis.rsiChanges, List.mem_iff_getElem] at hc
  obtain ⟨i, hi, hceq⟩ := hc
  have hlen : i + 1 < prices.length := by
    rw [List.length_zipWith, List.length_tail] at hi
    omega
  have hi' : i < prices.length := by omega
  have hitail : i < prices.tail.length := by
    rw [List.length_tail]; omega
  rw [List.getElem_zipWith] at hceq
  rw [List.getElem_tail] at hceq
  have := hmono i hlen
  rw [List.getD_eq_getElem prices 0 hi', List.getD_eq_getElem prices 0 hlen] at this
  rw [← hceq]
  exact sub_pos.2 this

/-- C6 amended: for `period ≥ 1`, `calculate_rsi` returns the empty
sequence on fewer than `period+1` observations; otherwise one value per
window, equal to `100` when the average loss is zero and to
`100 - 100/(1 + avg_gain/avg_loss)` rounded to two decimal places
otherwise; and on a strictly monotonically increasing price series
every returned value is `100`. -/
theorem C6_rsi_amended (prices : List ℚ) (period : ℕ) (hp : 1 ≤ period) :
    (prices.length < period + 1 →
      TechnicalAnalysis.calculate_rsi prices period = some []) ∧
    (period + 1 ≤ prices.length →
      ∃ l, TechnicalAnalysis.calculate_rsi prices period = some l ∧
        l.length = prices.length - period ∧
        ∀ k (h : k < l.length),
          l[k] =
            (if TechnicalAnalysis.rsiAvg (TechnicalAnalysis.rsiLosses prices) period k = 0
             then 100
             else roundTo 2 (100 - 100 /
               (1 + TechnicalAnalysis.rsiAvg (TechnicalAnalysis.rsiGains prices) period k /
                 TechnicalAnalysis.rsiAvg (TechnicalAnalysis.rsiLosses prices) period k)))) ∧
    ((∀ i, i + 1 < prices.length → prices.getD i 0 < prices.getD (i + 1) 0) →
      ∀ l, TechnicalAnalysis.calculate_rsi prices period = some l → ∀ v ∈ l, v = 100) := by
  refine ⟨?_, ?_, ?_⟩
  · intro h
    simp only [TechnicalAnalysis.calculate_rsi, if_pos h]
  · intro h
    refine ⟨(List.range ((TechnicalAnalysis.rsiGains prices).length - period + 1)).map
      fun k =>
        let avg_gain := TechnicalAnalysis.rsiAvg (TechnicalAnalysis.rsiGains prices) period k
        let avg_loss := TechnicalAnalysis.rsiAvg (TechnicalAnalysis.rsiLosses prices) period k
        roundTo 2 (if avg_loss = 0 then 100 else 100 - 100 / (1 + avg_gain / avg_loss)),
      ?_, ?_, ?_⟩
    · simp only [TechnicalAnalysis.calculate_rsi, if_neg (not_lt.2 h),
        if_neg (by omega : ¬ period = 0)]
    · simp only [List.length_map, List.length_range, length_rsiGains]
      omega
    · intro k hk
      simp only [List.getElem_map, List.getElem_range]
      by_cases hlo :
          TechnicalAnalysis.rsiAvg (TechnicalAnalysis.rsiLosses prices) period k = 0
      · rw [if_pos hlo, if_pos hlo]
        norm_num [roundTo, round_eq]
      · rw [if_neg hlo, if_neg hlo]
  · intro hmono l hl v hv
    by_cases hlen : prices.length < period + 1
    · rw [TechnicalAnalysis.calculate_rsi, if_pos hlen] at hl
      obtain rfl : ([] : List ℚ) = l := Option.some.inj hl
      exact absurd hv (List.not_mem_nil v)
    · rw [TechnicalAnalysis.calculate_rsi, if_neg hlen,
        if_neg (by omega : ¬ period = 0)] at hl
      obtain rfl := Option.some.inj hl
      rw [List.mem_map] at hv
      obtain ⟨k, _, hv⟩ := hv
      have hzero : TechnicalAnalysis.rsiAvg (TechnicalAnalysis.rsiLosses prices) period k = 0 := by
        rw [TechnicalAnalysis.rsiAvg]
        rw [List.sum_eq_zero, zero_div]
        intro x hx
        have hxmem : x ∈ TechnicalAnalysis.rsiLosses prices :=
          List.mem_of_mem_drop (List.mem_of_mem_take hx)
        rw [TechnicalAnalysis.rsiLosses, List.mem_map] at hxmem
        obtain ⟨c, hc, rfl⟩ := hxmem
        rw [if_pos (rsiChanges_pos_of_mono prices hmono c hc)]
      rw [← hv]
      simp only [hzero, if_pos rfl]
      norm_num [roundTo, round_eq]

/-- Witness for C6 at a concrete price list and period. -/
theorem C6_witness :
    1 ≤ 1 ∧ 1 + 1 ≤ ([(1 : ℚ), 3]).length ∧
      (∃ l, TechnicalAnalysis.calculate_rsi [(1 : ℚ), 3] 1 = some l ∧
        l.length = 1 ∧
        ∀ k (h : k < l.length),
          l[k] =
            (if TechnicalAnalysis.rsiAvg (TechnicalAnalysis.rsiLosses [(1 : ℚ), 3]) 1 k = 0
             then 100
             else roundTo 2 (100 - 100 /
               (1 + TechnicalAnalysis.rsiAvg (TechnicalAnalysis.rsiGains [(1 : ℚ), 3]) 1 k /
                 TechnicalAnalysis.rsiAvg (TechnicalAnalysis.rsiLosses [(1 : ℚ), 3]) 1 k)))) ∧
      (∀ l, TechnicalAnalysis.calculate_rsi [(1 : ℚ), 3] 1 = some l → ∀ v ∈ l, v = 100) := by
  have h := C6_rsi_amended [(1 : ℚ), 3] 1 (le_refl 1)
  refine ⟨le_refl 1, by norm_num, ?_, ?_⟩
  · obtain ⟨l, h1, h2, h3⟩ := h.2.1 (by norm_num)
    exact ⟨l, h1, by simpa using h2, h3⟩
  · refine h.2.2 ?_
    intro i hi
    have hi0 : i = 0 := by
      simp only [List.length_cons, List.length_nil] at hi
      omega
    subst hi0
    norm_num [List.getD_cons_zero, List.getD_cons_succ]

/-- Helper: the level set collected over the interior scan
`range(window, len - window)` equals the set collected over all indices
that have `window` neighbours on each side. -/
theorem scanFinset_eq (prices : List ℚ) (window : ℕ)
    (hlen : ¬ prices.length < 2 * window + 1) (p : ℕ → Bool) :
    ((((List.range (prices.length - 2 * window)).map fun k => window + k).filter
        p).map fun i => prices.getD i 0).toFinset =
      (((List.range prices.length).filter fun i =>
          decide (window ≤ i) && decide (i + window < prices.length) && p i).map
        fun i => prices.getD i 0).toFinset := by
  ext q
  simp only [List.mem_toFinset, List.mem_map, List.mem_filter, List.mem_range,
    Bool.and_eq_true, decide_eq_true_eq]
  constructor
  · rintro ⟨i, ⟨⟨k, hk, rfl⟩, hp⟩, rfl⟩
    exact ⟨window + k, ⟨by omega, ⟨⟨by omega, by omega⟩, hp⟩⟩, rfl⟩
  · rintro ⟨i, ⟨_, ⟨⟨h1, h2⟩, hp⟩⟩, rfl⟩
    exact ⟨i, ⟨⟨i - window, by omega, by omega⟩, hp⟩, rfl⟩

/-- C7: `detect_support_resistance` returns as support exactly the set
of prices of points that are <= all points within a symmetric window of
`window` positions on each side (excluding the point itself), and as
resistance exactly those >= all such points, each as a set (duplicates
removed, no order). -/
theorem C7_support_resistance_correct (prices : List ℚ) (window : ℕ) :
    TechnicalAnalysis.detect_support_resistance prices window =
      some (TechnicalAnalysis.supportSpec prices window,
        TechnicalAnalysis.resistanceSpec prices window) := by
  by_cases hlen : prices.length < 2 * window + 1
  · have hfilter : ∀ p : ℕ → Bool,
        ((List.range prices.length).filter fun i =>
          decide (window ≤ i) && decide (i + window < prices.length) && p i) = [] := by
      intro p
      rw [List.filter_eq_nil_iff]
      intro i hi
      simp only [List.mem_range] at hi
      simp only [Bool.and_eq_true, decide_eq_true_eq, not_and]
      rintro ⟨h1, h2⟩
      omega
    simp only [TechnicalAnalysis.detect_support_resistance, if_pos hlen,
      TechnicalAnalysis.supportSpec, TechnicalAnalysis.resistanceSpec,
      hfilter, List.map_nil, List.toFinset_nil]
  · simp only [TechnicalAnalysis.detect_support_resistance, if_neg hlen,
      TechnicalAnalysis.supportSpec, TechnicalAnalysis.resistanceSpec]
    rw [scanFinset_eq prices window hlen (TechnicalAnalysis.isSupportAt prices window),
      scanFinset_eq prices window hlen (TechnicalAnalysis.isResistanceAt prices window)]

/-- C8: `calculate_impermanent_loss` returns
`|2*sqrt(r)/(1+r) - 1| * 100` for every positive ratio `r` and `0` for
every non-positive one, and at `r = 2` the result is approximately
`5.72` (within `0.01`). -/
theorem C8_impermanent_loss_correct (r : ℝ) :
    (0 < r → DeFiCalculator.calculate_impermanent_loss r =
        some (|2 * Real.sqrt r / (1 + r) - 1| * 100)) ∧
    (r ≤ 0 → DeFiCalculator.calculate_impermanent_loss r = some 0) ∧
    (∀ v, DeFiCalculator.calculate_impermanent_loss 2 = some v →
      |v - 5.72| < 1 / 100) := by
  refine ⟨?_, ?_, ?_⟩
  · intro h
    simp only [DeFiCalculator.calculate_impermanent_loss, if_neg (not_le.2 h)]
  · intro h
    simp only [DeFiCalculator.calculate_impermanent_loss, if_pos h]
  · intro v hv
    simp only [DeFiCalculator.calculate_impermanent_loss,
      if_neg (by norm_num : ¬ (2 : ℝ) ≤ 0), Option.some.injEq] at hv
    have hs2 : Real.sqrt 2 ^ 2 = 2 := Real.sq_sqrt (by norm_num)
    have hs0 : (0 : ℝ) ≤ Real.sqrt 2 := Real.sqrt_nonneg 2
    have hlow : (1.41421 : ℝ) < Real.sqrt 2 := by
      nlinarith [sq_nonneg (Real.sqrt 2 - 1.41421)]
    have hhigh : Real.sqrt 2 < 1.41422 := by
      nlinarith [sq_nonneg (Real.sqrt 2 - 1.41422)]
    have habs : |2 * Real.sqrt 2 / (1 + 2) - 1| = 1 - 2 * Real.sqrt 2 / 3 := by
      rw [abs_of_neg (by nlinarith)]
      ring
    rw [← hv, habs, abs_lt]
    constructor <;> nlinarith

/-- Witness for C8 at the positive ratio `2`. -/
theorem C8_witness :
    (0 : ℝ) < 2 ∧
      DeFiCalculator.calculate_impermanent_loss 2 =
        some (|2 * Real.sqrt 2 / (1 + 2) - 1| * 100) :=
  ⟨by norm_num, (C8_impermanent_loss_correct 2).1 (by norm_num)⟩

/-- Counterexample to C9 as stated: `calculate_compound_interest` with
`compounds_per_year = 0` (and valid positive principal and rate)
divides by zero and raises ZeroDivisionError (embedded `none`) instead
of returning a sentinel value. -/
theorem C9_counterexample :
    DeFiCalculator.calculate_compound_interest 100 (1 / 2) 0 1 = none := by
  simp only [DeFiCalculator.calculate_compound_interest]
  rw [if_neg (by norm_num)]
  simp

/-- C9 amended: the pure numeric functions return a value (never raise)
on every input in which the divisor-type parameters are valid: the
swap needs a non-negative `amount_in*(1-fee_rate)` (otherwise the
denominator can vanish), APY needs a non-negative `final_amount`
(otherwise a negative base is raised to a fractional power),
compound interest needs `compounds_per_year ≥ 1`, SMA/RSI need
`period ≥ 1` (otherwise a division by zero) and support/resistance
detection needs `window ≥ 0` (every negative window raises IndexError,
embedded as `none`); price impact and impermanent loss are
unconditionally total. -/
theorem C9_no_raise_amended
    (a ri ro f a2 r2 : ℚ) (prices : List ℚ) (period : ℕ) (window : ℤ)
    (pc fin rate yrs r : ℝ) (days : ℤ) (c : ℕ) :
    (0 ≤ a * (1 - f) →
      (BaseEcosystemIntegration.calculate_swap_output a ri ro f).isSome) ∧
    (BaseEcosystemIntegration.calculate_price_impact a2 r2).isSome ∧
    (DeFiCalculator.calculate_impermanent_loss r).isSome ∧
    (0 ≤ fin → (DeFiCalculator.calculate_apy pc fin days).isSome) ∧
    (1 ≤ c → (DeFiCalculator.calculate_compound_interest pc rate c yrs).isSome) ∧
    (1 ≤ period → (TechnicalAnalysis.calculate_sma prices period).isSome) ∧
    (1 ≤ period → (TechnicalAnalysis.calculate_rsi prices period).isSome) ∧
    (0 ≤ window →
      (TechnicalAnalysis.detect_support_resistance_int prices window).isSome) ∧
    (window < 0 →
      TechnicalAnalysis.detect_support_resistance_int prices window = none) := by
  refine ⟨?_, ?_, ?_, ?_, ?_, ?_, ?_, ?_, ?_⟩
  · intro hfee
    simp only [BaseEcosystemIntegration.calculate_swap_output]
    split_ifs with h1 h2
    · rfl
    · exfalso
      push_neg at h1
      nlinarith [h1.1, h1.2]
    · rfl
  · simp only [BaseEcosystemIntegration.calculate_price_impact]
    split_ifs <;> rfl
  · simp only [DeFiCalculator.calculate_impermanent_loss]
    split_ifs <;> rfl
  · intro hfin
    simp only [DeFiCalculator.calculate_apy]
    split_ifs with h1 h2
    · rfl
    · exfalso
      push_neg at h1
      exact absurd h2.1 (not_lt.2 (div_nonneg hfin h1.1.le))
    · rfl
  · intro hc
    simp only [DeFiCalculator.calculate_compound_interest]
    split_ifs with h1 h2
    · rfl
    · omega
    · rfl
  · intro hp
    simp only [TechnicalAnalysis.calculate_sma]
    split_ifs with h1 h2
    · rfl
    · omega
    · rfl
  · intro hp
    simp only [TechnicalAnalysis.calculate_rsi]
    split_ifs with h1 h2
    · rfl
    · omega
    · rfl
  · intro hw
    simp only [TechnicalAnalysis.detect_support_resistance_int,
      if_neg (not_lt.2 hw), TechnicalAnalysis.detect_support_resistance]
    split_ifs <;> rfl
  · intro hw
    simp only [TechnicalAnalysis.detect_support_resistance_int, if_pos hw]

/-- Witness for C9 at concrete valid inputs for every function, plus
the negative-window raising case. -/
theorem C9_witness :
    (BaseEcosystemIntegration.calculate_swap_output 1 1000 2000 (3 / 1000)).isSome ∧
    (BaseEcosystemIntegration.calculate_price_impact 1 1000).isSome ∧
    (DeFiCalculator.calculate_impermanent_loss 2).isSome ∧
    (DeFiCalculator.calculate_apy 100 120 365).isSome ∧
    (DeFiCalculator.calculate_compound_interest 100 (1 / 20) 12 1).isSome ∧
    (TechnicalAnalysis.calculate_sma [1, 2] 1).isSome ∧
    (TechnicalAnalysis.calculate_rsi [1, 2] 1).isSome ∧
    (TechnicalAnalysis.detect_support_resistance_int [1, 2] 1).isSome ∧
    TechnicalAnalysis.detect_support_resistance_int [1, 2] (-1) = none := by
  have h := C9_no_raise_amended 1 1000 2000 (3 / 1000) 1 1000 [1, 2] 1 1
    100 120 (1 / 20) 1 2 365 12
  have hneg := C9_no_raise_amended 1 1000 2000 (3 / 1000) 1 1000 [1, 2] 1 (-1)
    100 120 (1 / 20) 1 2 365 12
  exact ⟨h.1 (by norm_num), h.2.1, h.2.2.1, h.2.2.2.1 (by norm_num),
    h.2.2.2.2.1 (by norm_num), h.2.2.2.2.2.1 (by norm_num),
    h.2.2.2.2.2.2.1 (by norm_num), h.2.2.2.2.2.2.2.1 (by norm_num),
    hneg.2.2.2.2.2.2.2.2 (by norm_num)⟩

/-- C10: the two impermanent-loss implementations agree on positive
ratios: the Base-ecosystem two-argument version at
`(initial_pr, current_pr)` equals the DeFi-calculator one-argument
version at the ratio change `current_pr / initial_pr`. -/
theorem C10_impermanent_loss_agree (initial_pr current_pr : ℝ)
    (h1 : 0 < initial_pr) (h2 : 0 < current_pr) :
    BaseEcosystemIntegration.calculate_impermanent_loss initial_pr current_pr =
      DeFiCalculator.calculate_impermanent_loss (current_pr / initial_pr) := by
  have hrc : 0 < current_pr / initial_pr := div_pos h2 h1
  simp only [BaseEcosystemIntegration.calculate_impermanent_loss,
    DeFiCalculator.calculate_impermanent_loss, if_neg (not_le.2 hrc),
    if_neg (show ¬ (initial_pr ≤ 0 ∨ current_pr ≤ 0) by push_neg; exact ⟨h1, h2⟩)]
  rw [Real.sqrt_eq_rpow]

/-- Witness for C10 at the concrete ratios `1` and `2`. -/
theorem C10_witness :
    (0 : ℝ) < 1 ∧ (0 : ℝ) < 2 ∧
      BaseEcosystemIntegration.calculate_impermanent_loss 1 2 =
        DeFiCalculator.calculate_impermanent_loss (2 / 1) :=
  ⟨by norm_num, by norm_num,
    C10_impermanent_loss_agree 1 2 (by norm_num) (by norm_num)⟩
